import Mathlib

/-!
Verification of the core update engine of the `repull` container auto-updater.

The Go source is shallowly embedded: pure helpers become Lean functions,
Docker-daemon interactions become explicit oracles (records of response
functions) together with traces of the daemon calls the engine issues,
and `os.Exit` becomes a distinct outcome variant.  Go strings are
modelled by Lean `String` (container ids, names, digests and labels are
ASCII, so byte indexing and character indexing agree).  Go maps are
modelled by association lists: insertion prepends, lookup takes the
first match, so lookup always sees the latest insertion exactly as a Go
map does.  Go map *iteration* order is unspecified, so wherever the code
ranges over a map the model takes the enumeration as an explicit list
and properties are quantified over (or refuted at) particular
enumeration orders.
-/

namespace Repull

/-! ## Go string and map primitives

`strHasPre s pre` is Go's `strings.HasPrefix(s, pre)`; `strTrimPre` is
`strings.TrimPrefix`; `strTake s n` is the Go slice `s[:n]`; `strLen` is
`len(s)` (byte length, which equals character length on the ASCII data
the program handles). -/

def strHasPre (s pre : String) : Bool :=
  pre.data.isPrefixOf s.data

def strTrimPre (s pre : String) : String :=
  if strHasPre s pre then String.mk (s.data.drop pre.data.length) else s

def strTake (s : String) (n : Nat) : String :=
  String.mk (s.data.take n)

def strLen (s : String) : Nat :=
  s.data.length

/-- Go map lookup on an association list (first match wins). -/
def lookupA {β : Type} : List (String × β) → String → Option β
  | [], _ => none
  | (k', v) :: rest, k => if k' = k then some v else lookupA rest k

/-- Bytewise lexicographic order on character lists (used only to state
what "lexicographically smallest" means in the spec's claims). -/
def lexLtChars : List Char → List Char → Bool
  | [], [] => false
  | [], _ :: _ => true
  | _ :: _, [] => false
  | a :: as, b :: bs =>
    if a.toNat < b.toNat then true
    else if a.toNat = b.toNat then lexLtChars as bs
    else false

/-- Lexicographic order on strings, per the spec's "lexicographically
smallest network name". -/
def strLexLt (a b : String) : Bool :=
  lexLtChars a.data b.data

end Repull

namespace Repull.Docker

/-! ## Digest comparator (`internal/docker/images.go`) -/

/-- `HasDigestChanged` from `images.go`: plain string inequality. -/
def HasDigestChanged (oldDigest newDigest : String) : Bool :=
  oldDigest != newDigest

/-! ## `internal/docker/containers.go` -/

/-- `shortID` / `ShortID`: first 12 characters of a container id, or the
full id if shorter. -/
def shortID (id : String) : String :=
  if strLen id > 12 then strTake id 12 else id

/-- The daemon queries `resolveNetworkMode` can make: `ContainerInspect`
by reference (returning the current full id on success) and
`ContainerList` with `All: true` (returning id and names per container,
or failing). -/
structure NetDaemon where
  inspectId : String → Option String
  listAll : Option (List (String × List String))

/-- The Recreation-Map consultation inside `resolveNetworkMode`: first an
exact lookup, then the partial-id scan
(`strings.HasPrefix(oldID, ref) || strings.HasPrefix(ref, shortID(oldID))`).
A `nil` Go map behaves exactly like the empty list here. -/
def lookupRecreated (recreated : List (String × String)) (ref : String) : Option String :=
  match lookupA recreated ref with
  | some newID => some newID
  | none =>
    (recreated.find? (fun p => strHasPre p.1 ref || strHasPre ref (shortID p.1))).map Prod.snd

/-- `resolveNetworkMode`: rewrite a `container:<ref>` network mode to the
current id of its target, consulting the Recreation Map first, then a
live inspect, then a scan of all container names; any other mode is
returned unchanged. -/
def resolveNetworkMode (d : NetDaemon) (mode : String) (recreated : List (String × String)) :
    String :=
  if strHasPre mode ("container:") = false then mode
  else
    let ref := strTrimPre mode ("container:")
    match lookupRecreated recreated ref with
    | some newID => "container:" ++ newID
    | none =>
      match d.inspectId ref with
      | some i => "container:" ++ i
      | none =>
        match d.listAll with
        | none => mode
        | some cs =>
          match cs.find? (fun c =>
              c.2.any (fun name => strTrimPre name ("/") == ref || name == ref)) with
          | some c => "container:" ++ c.1
          | none => mode

/-- A container as the daemon holds it, for the purpose of the
recreation state machine: identity, name and whether it is running. -/
structure DCont where
  id : String
  name : String
  running : Bool
  deriving DecidableEq

/-- The daemon calls `RecreateContainer` issues, in order. -/
inductive DCall where
  | pull (image : String)
  | stop (id : String)
  | removeC (id : String)
  | waitRemoval (id : String)
  | create (name : String) (primaryNet : Option String) (netMode : String)
  | connect (net : String) (id : String)
  | start (id : String)
  | rename (id newName : String)
  deriving DecidableEq

/-- Daemon responses for one `RecreateContainer` invocation: whether each
call succeeds, the id assigned by a successful create, and the oracle
`resolveNetworkMode` queries.  `removeInProgress` selects the
"removal already in progress" error branch, in which case
`waitForContainerRemoval` polls and `waitRemovalOk` says whether the
container disappears before the 60s deadline. -/
structure RecBehavior where
  net : NetDaemon
  pullOk : Bool
  stopOk : Bool
  removeOk : Bool
  removeInProgress : Bool
  waitRemovalOk : Bool
  createId : Option String
  connectOk : String → Bool
  startOk : Bool

/-- The slice of `container.InspectResponse` that determines the daemon
calls of `RecreateContainer`: identity, image, network mode, hostname and
the declared networks in the order Go's map iteration enumerates them
(the `Nat` stands for the opaque per-network `EndpointSettings`, copied
through verbatim).  The remaining config fields (env, mounts, ports,
capabilities, …) are copied verbatim into the create call and play no
role in the claims, so they are not carried here. -/
structure DSnapshot where
  id : String
  name : String
  image : String
  networkMode : String
  hostname : String
  networks : List (String × Nat)
  deriving DecidableEq

/-- Hostname may only be carried over when the network mode is not
`container:…`, `host` or `none` (`canSetHostname` in the source). -/
def canSetHostname (mode : String) : Bool :=
  if strLen mode ≥ 10 && strTake mode 10 == "container:" then false
  else if mode == "host" || mode == "none" then false
  else true

/-- The network-settings loop shared by `RecreateContainer` and
`CreateAndStartContainer`: the first enumerated network becomes the one
endpoint passed to the create call, every later one is collected (in
enumeration order) to be attached after creation. -/
def extractNetworks {α : Type} (nets : List (String × α)) : Option (String × α) × List String :=
  match nets with
  | [] => (none, [])
  | firstNet :: rest => (some firstNet, rest.map Prod.fst)

def setStopped (st : List DCont) (id : String) : List DCont :=
  st.map (fun c => if c.id == id then { c with running := false } else c)

def setRunning (st : List DCont) (id : String) : List DCont :=
  st.map (fun c => if c.id == id then { c with running := true } else c)

def removeFromState (st : List DCont) (id : String) : List DCont :=
  st.filter (fun c => c.id != id)

/-- `ContainerRemove` plus the already-in-progress race handling
(`waitForContainerRemoval` polls until the container is gone or the 60s
deadline passes). -/
def removeStep (b : RecBehavior) (st : List DCont) (id : String) :
    Except String Unit × List DCont × List DCall :=
  if b.removeOk then (Except.ok (), removeFromState st id, [DCall.removeC id])
  else if b.removeInProgress then
    if b.waitRemovalOk then
      (Except.ok (), removeFromState st id, [DCall.removeC id, DCall.waitRemoval id])
    else
      (Except.error ("timed out waiting for container removal"), st,
        [DCall.removeC id, DCall.waitRemoval id])
  else (Except.error ("failed to remove container " ++ id), st, [DCall.removeC id])

/-- `connect` calls for the additional networks, stopping at the first
failure exactly as the Go loop returns on the first `NetworkConnect`
error. -/
def connectAll (b : RecBehavior) (nid : String) : List String → Bool × List DCall
  | [] => (true, [])
  | n :: rest =>
    if b.connectOk n then
      let r := connectAll b nid rest
      (r.1, DCall.connect n nid :: r.2)
    else (false, [DCall.connect n nid])

/-- `RecreateContainer` (the current version, taking the Recreation Map):
pull, stop, remove (tolerating an in-progress removal), rebuild the
config, resolve the network mode, create under the original name,
connect additional networks, start.  Returns the new id on success.
There is no rename step and no restoration of the old container on
failure. -/
def RecreateContainer (b : RecBehavior) (st : List DCont) (old : DSnapshot)
    (recreated : List (String × String)) : Except String String × List DCont × List DCall :=
  if b.pullOk = false then
    (Except.error ("failed to pull image " ++ old.image), st, [DCall.pull old.image])
  else if b.stopOk = false then
    (Except.error ("failed to stop container " ++ old.id), st,
      [DCall.pull old.image, DCall.stop old.id])
  else
    let st1 := setStopped st old.id
    match removeStep b st1 old.id with
    | (Except.error e, st2, tr2) =>
      (Except.error e, st2, DCall.pull old.image :: DCall.stop old.id :: tr2)
    | (Except.ok _, st2, tr2) =>
      let networkMode := resolveNetworkMode b.net old.networkMode recreated
      let extracted := extractNetworks old.networks
      let createCall := DCall.create old.name (extracted.1.map Prod.fst) networkMode
      match b.createId with
      | none =>
        (Except.error ("failed to create container"), st2,
          DCall.pull old.image :: DCall.stop old.id :: tr2 ++ [createCall])
      | some nid =>
        let st3 := st2 ++ [{ id := nid, name := old.name, running := false }]
        let conn := connectAll b nid extracted.2
        let tr3 := DCall.pull old.image :: DCall.stop old.id :: tr2 ++ createCall :: conn.2
        if conn.1 = false then
          (Except.error ("failed to connect container to network"), st3, tr3)
        else if b.startOk = false then
          (Except.error ("failed to start container " ++ nid), st3, tr3 ++ [DCall.start nid])
        else
          (Except.ok nid, setRunning st3 nid, tr3 ++ [DCall.start nid])

def isErr {α β : Type} : Except α β → Bool
  | Except.error _ => true
  | Except.ok _ => false

def isRenameCall : DCall → Bool
  | DCall.rename _ _ => true
  | _ => false

/-! ### Concrete scenarios used to refute spec claims -/

def cexNet : NetDaemon :=
  { inspectId := fun _ => none, listAll := none }

/-- `web`, running under its original name, on one network. -/
def c1Snap : DSnapshot :=
  { id := "aaa111", name := "/web", image := "nginx:latest", networkMode := "bridge",
    hostname := "web", networks := [("frontend", 0)] }

/-- Daemon behavior: stop and remove succeed, then the create call fails. -/
def c1Beh : RecBehavior :=
  { net := cexNet, pullOk := true, stopOk := true, removeOk := true,
    removeInProgress := false, waitRemovalOk := true, createId := none,
    connectOk := fun _ => true, startOk := true }

def c1St : List DCont :=
  [{ id := "aaa111", name := "/web", running := true }]

/-- A snapshot whose two networks the daemon enumerates as `netB` before
`netA`, and the same snapshot under the other enumeration of the same
network map. -/
def c2SnapBA : DSnapshot :=
  { id := "c2id", name := "/app", image := "img:latest", networkMode := "bridge",
    hostname := "app", networks := [("netB", 0), ("netA", 1)] }

def c2SnapAB : DSnapshot :=
  { id := "c2id", name := "/app", image := "img:latest", networkMode := "bridge",
    hostname := "app", networks := [("netA", 1), ("netB", 0)] }

def c2Beh : RecBehavior :=
  { net := cexNet, pullOk := true, stopOk := true, removeOk := true,
    removeInProgress := false, waitRemovalOk := true, createId := some ("newC2"),
    connectOk := fun _ => true, startOk := true }

/-- Two distinct 64-character ids sharing their first 12 characters. -/
def c8Old : String := String.mk (List.replicate 12 'a' ++ List.replicate 52 'b')

def c8I : String := String.mk (List.replicate 12 'a' ++ List.replicate 52 'c')

/-- A daemon on which `c8I` is a live container whose inspect returns its
own (current) id. -/
def c8Daemon : NetDaemon :=
  { inspectId := fun r => if r == c8I then some c8I else none, listAll := none }

def c7Daemon : NetDaemon :=
  { inspectId := fun _ => some ("livedifferent"), listAll := none }

def c8WitnessDaemon : NetDaemon :=
  { inspectId := fun r => if r == "xyz1" then some ("xyz1") else none, listAll := none }

end Repull.Docker

namespace Repull.Updater

/-! ## Compose grouper (`GroupByComposeService`) -/

/-- `com.docker.compose.project`. -/
def ComposeProjectLabel : String := "com.docker.compose.project"

/-- `com.docker.compose.service`. -/
def ComposeServiceLabel : String := "com.docker.compose.service"

/-- The slice of `container.InspectResponse` the updater reads.  `Config`
is a nil-able pointer in Go, as is the label map inside it, hence the
two `Option` layers. -/
structure Config where
  image : String
  labels : Option (List (String × String))
  deriving DecidableEq

structure Snapshot where
  id : String
  name : String
  config : Option Config
  deriving DecidableEq

/-- `getGroupKey`: compose key when both labels are present and non-empty,
otherwise `standalone:<id>`. -/
def getGroupKey (c : Snapshot) : String :=
  match c.config with
  | none => "standalone:" ++ c.id
  | some cfg =>
    match cfg.labels with
    | none => "standalone:" ++ c.id
    | some ls =>
      match lookupA ls ComposeProjectLabel, lookupA ls ComposeServiceLabel with
      | some project, some service =>
        if project != "" && service != "" then project ++ ":" ++ service
        else "standalone:" ++ c.id
      | _, _ => "standalone:" ++ c.id

/-- One step of `groups[key] = append(groups[key], c)`: Go map insertion,
modelled on an association list with unique keys (the matching entry is
extended in place, otherwise a new entry is appended). -/
def upsert : List (String × List Snapshot) → String → Snapshot → List (String × List Snapshot)
  | [], k, c => [(k, [c])]
  | (k', l) :: rest, k, c =>
    if k' = k then (k', l ++ [c]) :: rest else (k', l) :: upsert rest k c

/-- `GroupByComposeService`: fold the input list through `upsert`. -/
def GroupByComposeService (containers : List Snapshot) : List (String × List Snapshot) :=
  containers.foldl (fun groups c => upsert groups (getGroupKey c) c) []

/-- Group contents under a key (Go's `groups[key]`, empty when absent). -/
def lookupGroup (groups : List (String × List Snapshot)) (k : String) : List Snapshot :=
  (lookupA groups k).getD []

/-- All grouped containers, concatenated group by group. -/
def flattenGroups (groups : List (String × List Snapshot)) : List Snapshot :=
  groups.foldr (fun p acc => p.2 ++ acc) []

/-- The spec's wording of the grouping key ("if both the project-label and
service-label are present and non-empty on a snapshot, key =
`project:service`; otherwise key = `standalone:<id>`"), written directly
from the spec for comparison with `getGroupKey`. -/
def specGroupKey (c : Snapshot) : String :=
  match (c.config.bind Config.labels).bind (fun ls => lookupA ls ComposeProjectLabel),
        (c.config.bind Config.labels).bind (fun ls => lookupA ls ComposeServiceLabel) with
  | some p, some s => if p ≠ "" ∧ s ≠ "" then p ++ ":" ++ s else "standalone:" ++ c.id
  | _, _ => "standalone:" ++ c.id

/-! ## Update orchestrator (`UpdateGroups`)

`UpdateGroups` drives the whole run.  The daemon and the OS are an
oracle (`UEnv`); the engine's externally visible actions are recorded as
a trace of `UEvent`s.  `RecreateContainer` and `CreateAndStartContainer`
are verified separately at the docker level, so here each invocation is
a single trace event whose success and resulting id come from the
oracle; all daemon mutations of the updater layer happen inside those
two calls plus the explicit `ContainerRename`/`ContainerStop` of the
self-update path, each of which has its own event. -/

inductive UEvent where
  | getDigest (image : String) (result : Option String)
  | pullImage (image : String) (ok : Bool)
  | notifyError (group msg : String)
  | notifyUpdate (group image oldDigest newDigest : String)
  | renameCall (id newName : String)
  | createStart (name : String) (ok : Bool)
  | stopCall (id : String)
  | exitProcess
  | recreateCall (id : String) (result : Option String)
  | findDeps (id : String)
  deriving DecidableEq

/-- How one run of `UpdateGroups` ends: normally, with an error, or by
`os.Exit(0)` after a successful self-update (modelled as a distinct
outcome instead of a process halt). -/
inductive UOutcome where
  | ok
  | err (msg : String)
  | exited
  deriving DecidableEq

/-- The oracle for one run: `ownID` is the self-id `detectOwnContainerID`
computed once (cgroup path, with hostname fallback); the remaining
fields give the daemon's answer to each call the orchestrator makes.
`recreate` abstracts a full `RecreateContainer` invocation (it receives
the Recreation Map the code passes in), `findDeps` abstracts
`FindNetworkDependents`. -/
structure UEnv where
  ownID : String
  oldDigest : String → Option String
  pullOk : String → Bool
  newDigest : String → Option String
  renameOk : String → String → Bool
  createStartOk : String → Bool
  stopOk : String → Bool
  recreate : String → List (String × String) → Option String
  findDeps : String → Option (List Snapshot)

/-- `sanitize`: replace control characters with `·` before logging or
notifying. -/
def sanitize (s : String) : String :=
  String.mk (s.data.map (fun r => if r.toNat < 32 || r.toNat == 127 then '·' else r))

/-- `isSelf` (part_007 version): exact match against a 64-character
cgroup-derived id, hostname-prefix match otherwise.  The
`sync.Once`-cached global is the explicit `ownID` argument. -/
def isSelf (ownID containerID : String) : Bool :=
  if strLen ownID == 64 then containerID == ownID
  else strHasPre containerID ownID

/-- The display name computed at the top of the container loop:
the name without its leading slash, falling back to the short id. -/
def containerNameOf (c : Snapshot) : String :=
  let n := strTrimPre c.name ("/")
  if n == "" then (if strLen c.id > 12 then strTake c.id 12 else c.id) else n

/-- The temporary name the self-update path renames itself to:
`<name>-old-<first 8 chars of id>`. -/
def tempNameOf (c : Snapshot) : String :=
  containerNameOf c ++ "-old-" ++ (if strLen c.id > 8 then strTake c.id 8 else c.id)

/-- `containers[0].Config.Image` (the Go code dereferences `Config`
without a nil check; snapshots read from a live daemon always carry it). -/
def imageOf (c : Snapshot) : String :=
  match c.config with
  | some cfg => cfg.image
  | none => ""

/-- `if notifier != nil { notifier.SendError(...) }`. -/
def notifyErrEvents (hasNotifier : Bool) (group msg : String) : List UEvent :=
  if hasNotifier then [UEvent.notifyError group msg] else []

/-- `if notifier != nil { notifier.SendUpdate(...) }`. -/
def notifyUpdEvents (hasNotifier : Bool) (group image oldD newD : String) : List UEvent :=
  if hasNotifier then [UEvent.notifyUpdate group image oldD newD] else []

/-- The network-dependent repair loop: recreate each dependent, adding
its mapping on success, logging and continuing on failure. -/
def depLoop (env : UEnv) (deps : List Snapshot) (recreated : List (String × String)) :
    List (String × String) × List UEvent :=
  match deps with
  | [] => (recreated, [])
  | dep :: rest =>
    match env.recreate dep.id recreated with
    | none =>
      let r := depLoop env rest recreated
      (r.1, UEvent.recreateCall dep.id none :: r.2)
    | some nid =>
      let r := depLoop env rest ((dep.id, nid) :: recreated)
      (r.1, UEvent.recreateCall dep.id (some nid) :: r.2)

/-- The per-group container loop of `UpdateGroups` (lines 79–172 of the
source): self-update branch, otherwise recreate, record the mapping,
repair network dependents, continue; stop the run on the first failure. -/
def recreateLoop (env : UEnv) (hasNotifier : Bool) (groupKey image oldD newD : String)
    (cs : List Snapshot) (recreated : List (String × String)) :
    UOutcome × List (String × String) × List UEvent :=
  match cs with
  | [] => (UOutcome.ok, recreated, [])
  | c :: rest =>
    if isSelf env.ownID c.id then
      if env.renameOk c.id (tempNameOf c) = false then
        (UOutcome.err ("failed to rename container for self-update"), recreated,
          UEvent.renameCall c.id (tempNameOf c) ::
            notifyErrEvents hasNotifier (sanitize groupKey) ("Self-update failed: rename error"))
      else if env.createStartOk (containerNameOf c) = false then
        (UOutcome.err ("failed to create new container for self-update"), recreated,
          UEvent.renameCall c.id (tempNameOf c) ::
            UEvent.createStart (containerNameOf c) false ::
            UEvent.renameCall c.id (containerNameOf c) ::
            notifyErrEvents hasNotifier (sanitize groupKey)
              ("Self-update failed: could not start new container"))
      else
        (UOutcome.exited, recreated,
          UEvent.renameCall c.id (tempNameOf c) ::
            UEvent.createStart (containerNameOf c) true ::
            (notifyUpdEvents hasNotifier (sanitize groupKey) (sanitize image) oldD newD ++
              [UEvent.stopCall c.id, UEvent.exitProcess]))
    else
      match env.recreate c.id recreated with
      | none =>
        (UOutcome.err ("failed to recreate container " ++ containerNameOf c), recreated,
          UEvent.recreateCall c.id none ::
            notifyErrEvents hasNotifier (sanitize groupKey)
              ("Failed to recreate container " ++ sanitize (containerNameOf c)))
      | some nid =>
        let recreated1 := (c.id, nid) :: recreated
        let dres := depLoop env ((env.findDeps c.id).getD []) recreated1
        let rres := recreateLoop env hasNotifier groupKey image oldD newD rest dres.1
        (rres.1, rres.2.1,
          UEvent.recreateCall c.id (some nid) :: UEvent.findDeps c.id :: (dres.2 ++ rres.2.2))

/-- The per-group body of `UpdateGroups` (lines 26–177): digest before
pull, pull, digest after pull, skip if unchanged, skip if dry-run,
otherwise recreate every container then notify success. -/
def checkGroup (env : UEnv) (hasNotifier dryRun : Bool) (groupKey : String)
    (cs : List Snapshot) (recreated : List (String × String)) :
    UOutcome × List (String × String) × List UEvent :=
  match cs with
  | [] => (UOutcome.ok, recreated, [])
  | c0 :: _ =>
    let image := imageOf c0
    let oldD := (env.oldDigest image).getD ""
    let ev0 := [UEvent.getDigest image (env.oldDigest image)]
    if env.pullOk image = false then
      (UOutcome.err ("failed to pull image " ++ image), recreated,
        ev0 ++ UEvent.pullImage image false ::
          notifyErrEvents hasNotifier (sanitize groupKey)
            ("Failed to pull image " ++ sanitize image))
    else
      match env.newDigest image with
      | none =>
        (UOutcome.err ("failed to get digest for " ++ image), recreated,
          ev0 ++ UEvent.pullImage image true :: UEvent.getDigest image none ::
            notifyErrEvents hasNotifier (sanitize groupKey)
              ("Failed to get digest for " ++ sanitize image))
      | some newD =>
        let ev1 := ev0 ++ [UEvent.pullImage image true, UEvent.getDigest image (some newD)]
        if Docker.HasDigestChanged oldD newD = false then
          (UOutcome.ok, recreated, ev1)
        else if dryRun then
          (UOutcome.ok, recreated, ev1)
        else
          let r := recreateLoop env hasNotifier groupKey image oldD newD cs recreated
          match r.1 with
          | UOutcome.ok =>
            (UOutcome.ok, r.2.1,
              ev1 ++ r.2.2 ++
                notifyUpdEvents hasNotifier (sanitize groupKey) (sanitize image) oldD newD)
          | o => (o, r.2.1, ev1 ++ r.2.2)

/-- The group loop of `UpdateGroups`, threading the Recreation Map and
stopping at the first error (or at a self-update exit). -/
def groupsLoop (env : UEnv) (hasNotifier dryRun : Bool)
    (groups : List (String × List Snapshot)) (recreated : List (String × String)) :
    UOutcome × List (String × String) × List UEvent :=
  match groups with
  | [] => (UOutcome.ok, recreated, [])
  | (gk, cs) :: rest =>
    let r := checkGroup env hasNotifier dryRun gk cs recreated
    match r.1 with
    | UOutcome.ok =>
      let r2 := groupsLoop env hasNotifier dryRun rest r.2.1
      (r2.1, r2.2.1, r.2.2 ++ r2.2.2)
    | o => (o, r.2.1, r.2.2)

/-- `UpdateGroups`: one run, starting from a fresh (empty) Recreation
Map, over the groups in some map-iteration order. -/
def UpdateGroups (env : UEnv) (hasNotifier dryRun : Bool)
    (groups : List (String × List Snapshot)) :
    UOutcome × List (String × String) × List UEvent :=
  groupsLoop env hasNotifier dryRun groups []

/-- The events a dry run is allowed to produce: digest lookups, image
pulls, and (error) reporting. -/
def isReadOnlyEvent : UEvent → Bool
  | UEvent.getDigest _ _ => true
  | UEvent.pullImage _ _ => true
  | UEvent.notifyError _ _ => true
  | _ => false

/-! ### Concrete scenario for the self-update rollback witness -/

def c6Snap : Snapshot :=
  { id := "aaaabbbb", name := "/repull", config := some { image := "repull:latest", labels := none } }

def c6Env : UEnv :=
  { ownID := "aaaa",
    oldDigest := fun _ => some ("sha256:one"),
    pullOk := fun _ => true,
    newDigest := fun _ => some ("sha256:two"),
    renameOk := fun _ _ => true,
    createStartOk := fun _ => false,
    stopOk := fun _ => true,
    recreate := fun _ _ => none,
    findDeps := fun _ => none }

end Repull.Updater

namespace Repull.Notify

/-! ## Discord notifier (the current `internal/notify/discord.go`, with
URL validation and error-message truncation).  The HTTP transport is an
oracle returning either a transport error or a status code; each POST
the notifier makes is recorded as a `(url, content)` pair.  The JSON
wrapping of the content string is a bijective encoding and is left
implicit. -/

structure Notifier where
  webhookURL : String
  deriving DecidableEq

structure HttpEnv where
  post : String → String → Except String Nat

/-- `truncate`: shorten a digest for display. -/
def truncate (digest : String) : String :=
  if strLen digest > 19 then strTake digest 19 ++ "..." else digest

/-- `NewDiscordNotifier`: empty URL disables notifications (nil
notifier, no error); a non-Discord URL is rejected. -/
def NewDiscordNotifier (webhookURL : String) : Except String (Option Notifier) :=
  if webhookURL == "" then Except.ok none
  else if strHasPre webhookURL ("https://discord.com/api/webhooks/") ||
      strHasPre webhookURL ("https://discordapp.com/api/webhooks/") then
    Except.ok (some { webhookURL := webhookURL })
  else
    Except.error ("invalid Discord webhook URL: must start with https://discord.com/api/webhooks/")

/-- `send`: one HTTP POST to the webhook; non-2xx status is an error. -/
def send (env : HttpEnv) (n : Notifier) (content : String) :
    Except String Unit × List (String × String) :=
  match env.post n.webhookURL content with
  | Except.error e => (Except.error e, [(n.webhookURL, content)])
  | Except.ok status =>
    if status < 200 || status ≥ 300 then
      (Except.error ("discord webhook returned bad status"), [(n.webhookURL, content)])
    else (Except.ok (), [(n.webhookURL, content)])

/-- `SendUpdate` on a possibly-nil receiver (Go methods on a nil pointer
are modelled by `Option Notifier`). -/
def SendUpdate (env : HttpEnv) (n : Option Notifier) (service image oldDigest newDigest : String) :
    Except String Unit × List (String × String) :=
  match n with
  | none => (Except.ok (), [])
  | some nn =>
    send env nn ("✅ Updated " ++ service ++ "\nImage: " ++ image ++ "\n" ++
      truncate oldDigest ++ " → " ++ truncate newDigest)

/-- `SendError` on a possibly-nil receiver; the message is truncated to
200 bytes before posting. -/
def SendError (env : HttpEnv) (n : Option Notifier) (service errorMsg : String) :
    Except String Unit × List (String × String) :=
  match n with
  | none => (Except.ok (), [])
  | some nn =>
    let m := if strLen errorMsg > 200 then strTake errorMsg 200 ++ "..." else errorMsg
    send env nn ("❌ Failed to update " ++ service ++ "\nError: " ++ m)

end Repull.Notify

namespace Repull

/-! ## Theorems -/

/-- If `pre` is a prefix of `s`, trimming it and gluing it back yields `s`. -/
theorem strHasPre_append_trim (s pre : String) (h : strHasPre s pre = true) :
    pre ++ strTrimPre s pre = s := by
  cases s with
  | mk sd =>
    cases pre with
    | mk pd =>
      have hp : pd.isPrefixOf sd = true := h
      rw [List.isPrefixOf_iff_prefix] at hp
      obtain ⟨t, ht⟩ := hp
      simp only [strTrimPre, h, if_true]
      show String.mk (pd ++ List.drop pd.length sd) = String.mk sd
      subst ht
      simp

end Repull

namespace Repull.Docker

/-- C7: when a `container:<ref>` mode finds `ref` in the Recreation Map
(exactly or through the short-id scan), the substituted id is the map's
new id for any daemon whatsoever — in particular for one whose live
inspect would also resolve `ref` — and a mode not of the form
`container:<ref>` is returned unchanged. -/
theorem resolveNetworkMode_prefers_map (d : NetDaemon) (m : List (String × String))
    (mode newID : String)
    (hmode : strHasPre mode ("container:") = true)
    (hfound : lookupRecreated m (strTrimPre mode ("container:")) = some newID)
    (_hlive : (d.inspectId (strTrimPre mode ("container:"))).isSome = true) :
    resolveNetworkMode d mode m = "container:" ++ newID ∧
    (∀ d₂ : NetDaemon, resolveNetworkMode d₂ mode m = "container:" ++ newID) ∧
    (∀ (d₂ : NetDaemon) (m₂ : List (String × String)) (mode₂ : String),
      strHasPre mode₂ ("container:") = false →
        resolveNetworkMode d₂ mode₂ m₂ = mode₂) := by
  have key : ∀ d₂ : NetDaemon, resolveNetworkMode d₂ mode m = "container:" ++ newID := by
    intro d₂
    simp [resolveNetworkMode, hmode, hfound]
  exact ⟨key d, key, fun d₂ m₂ mode₂ h => by simp [resolveNetworkMode, h]⟩

/-- Witness for C7: `old1` was recreated to `new1` this run, while the
daemon would resolve `old1` to `livedifferent`; the map wins. -/
theorem resolveNetworkMode_prefers_map_witness :
    resolveNetworkMode c7Daemon ("container:old1") [("old1", "new1")] = ("container:new1") := by
  have h := resolveNetworkMode_prefers_map c7Daemon [("old1", "new1")]
    ("container:old1") ("new1") (by decide) (by decide) (by decide)
  exact h.1

/-- C8 (amended): resolution of an already-current `container:<id>`
reference is unchanged provided the id also avoids the short-id scan of
the Recreation Map: it is not a key, no key extends it, and it does not
extend any key's 12-character short id. -/
theorem resolveNetworkMode_idempotent_resolved (d : NetDaemon) (m : List (String × String))
    (mode : String)
    (hmode : strHasPre mode ("container:") = true)
    (hnokey : lookupA m (strTrimPre mode ("container:")) = none)
    (hnopre : m.all (fun p => !(strHasPre p.1 (strTrimPre mode ("container:"))) &&
        !(strHasPre (strTrimPre mode ("container:")) (shortID p.1))) = true)
    (hlive : d.inspectId (strTrimPre mode ("container:")) =
        some (strTrimPre mode ("container:"))) :
    resolveNetworkMode d mode m = mode := by
  have hfind : m.find? (fun p => strHasPre p.1 (strTrimPre mode ("container:")) ||
      strHasPre (strTrimPre mode ("container:")) (shortID p.1)) = none := by
    rw [List.find?_eq_none]
    intro p hp
    have hν := (List.all_eq_true.mp hnopre) p hp
    simp only [Bool.and_eq_true, Bool.not_eq_true'] at hν
    simp [hν.1, hν.2]
  have hlr : lookupRecreated m (strTrimPre mode ("container:")) = none := by
    simp [lookupRecreated, hnokey, hfind]
  simp only [resolveNetworkMode, hmode]
  simp only [Bool.true_eq_false, if_false, hlr, hlive]
  exact strHasPre_append_trim mode ("container:") hmode

/-- Witness for the amended C8: a live id `xyz1` outside the map, with
one unrelated map entry, resolves to itself. -/
theorem resolveNetworkMode_idempotent_resolved_witness :
    resolveNetworkMode c8WitnessDaemon ("container:xyz1") [("aaa", "bbb")] = ("container:xyz1") := by
  exact resolveNetworkMode_idempotent_resolved c8WitnessDaemon [("aaa", "bbb")]
    ("container:xyz1") (by decide) (by decide) (by decide) (by decide)

/-- Counterexample to C8 as stated: `c8I` is live (its inspect returns
its own current full id) and is not a key of the map, yet because it
shares its first 12 characters with the key `c8Old`, the short-id scan
fires and resolution substitutes `newX` instead of leaving the mode
unchanged. -/
theorem resolveNetworkMode_shortid_collision :
    resolveNetworkMode c8Daemon ("container:" ++ c8I) [(c8Old, ("newX"))] = ("container:newX") ∧
    c8I ≠ c8Old ∧
    lookupA [(c8Old, ("newX" : String))] c8I = none ∧
    c8Daemon.inspectId c8I = some c8I ∧
    ("container:newX" : String) ≠ "container:" ++ c8I := by
  refine ⟨by decide, by decide, by decide, by decide, by decide⟩

theorem removeFromState_all_ne (st : List DCont) (id : String) :
    (removeFromState st id).all (fun c => c.id != id) = true := by
  rw [List.all_eq_true]
  intro c hc
  exact (List.mem_filter.mp hc).2

theorem connectAll_no_rename (b : RecBehavior) (nid : String) (l : List String) :
    ∀ x ∈ (connectAll b nid l).2, isRenameCall x = false := by
  induction l with
  | nil =>
    intro x hx
    simp [connectAll] at hx
  | cons n rest ih =>
    have hunf : connectAll b nid (n :: rest) =
        if b.connectOk n then
          ((connectAll b nid rest).1, DCall.connect n nid :: (connectAll b nid rest).2)
        else (false, [DCall.connect n nid]) := rfl
    intro x hx
    rw [hunf] at hx
    cases h : b.connectOk n
    · rw [h] at hx
      simp at hx
      subst hx
      rfl
    · rw [h, if_pos rfl] at hx
      simp at hx
      rcases hx with rfl | hx
      · rfl
      · exact ih x hx

theorem removeStep_no_rename (b : RecBehavior) (st : List DCont) (id : String) :
    ∀ x ∈ (removeStep b st id).2.2, isRenameCall x = false := by
  intro x hx
  unfold removeStep at hx
  by_cases h1 : b.removeOk = true
  · rw [if_pos h1] at hx
    simp at hx
    subst hx
    rfl
  · rw [if_neg h1] at hx
    by_cases h2 : b.removeInProgress = true
    · rw [if_pos h2] at hx
      by_cases h3 : b.waitRemovalOk = true
      · rw [if_pos h3] at hx
        simp at hx
        rcases hx with rfl | rfl <;> rfl
      · rw [if_neg h3] at hx
        simp at hx
        rcases hx with rfl | rfl <;> rfl
    · rw [if_neg h2] at hx
      simp at hx
      subst hx
      rfl

theorem removeStep_success (b : RecBehavior) (st : List DCont) (id : String)
    (hr : b.removeOk = true ∨ (b.removeInProgress = true ∧ b.waitRemovalOk = true)) :
    removeStep b st id = (Except.ok (), removeFromState st id,
      if b.removeOk then [DCall.removeC id] else [DCall.removeC id, DCall.waitRemoval id]) := by
  rcases hr with h | ⟨h1, h2⟩
  · simp [removeStep, h]
  · cases h3 : b.removeOk
    · simp [removeStep, h3, h1, h2]
    · simp [removeStep, h3]

/-- No call `RecreateContainer` ever issues is a rename, on any input and
under any daemon behavior. -/
theorem recreateTrace_no_rename (b : RecBehavior) (st : List DCont) (old : DSnapshot)
    (recreated : List (String × String)) :
    ∀ x ∈ (RecreateContainer b st old recreated).2.2, isRenameCall x = false := by
  intro x hx
  unfold RecreateContainer at hx
  by_cases hp : b.pullOk = false
  · rw [if_pos hp] at hx
    simp at hx
    subst hx
    rfl
  · rw [if_neg hp] at hx
    by_cases hs : b.stopOk = false
    · rw [if_pos hs] at hx
      simp at hx
      rcases hx with rfl | rfl <;> rfl
    · rw [if_neg hs] at hx
      have hremNR := removeStep_no_rename b (setStopped st old.id) old.id
      rcases hrem : removeStep b (setStopped st old.id) old.id with ⟨res, st2, tr2⟩
      rw [hrem] at hremNR
      cases res with
      | error e =>
        simp only [hrem] at hx
        simp at hx
        rcases hx with rfl | rfl | hx
        · rfl
        · rfl
        · exact hremNR x hx
      | ok u =>
        simp only [hrem] at hx
        cases hcid : b.createId with
        | none =>
          simp only [hcid] at hx
          simp at hx
          rcases hx with rfl | rfl | hx | rfl
          · rfl
          · rfl
          · exact hremNR x hx
          · rfl
        | some nid =>
          simp only [hcid] at hx
          have hconnNR := connectAll_no_rename b nid (extractNetworks old.networks).2
          by_cases hcf : (connectAll b nid (extractNetworks old.networks).2).1 = false
          · rw [if_pos hcf] at hx
            simp at hx
            rcases hx with rfl | rfl | hx | rfl | hx
            · rfl
            · rfl
            · exact hremNR x hx
            · rfl
            · exact hconnNR x hx
          · rw [if_neg hcf] at hx
            by_cases hsf : b.startOk = false
            · rw [if_pos hsf] at hx
              simp at hx
              rcases hx with rfl | rfl | hx | rfl | hx | rfl
              · rfl
              · rfl
              · exact hremNR x hx
              · rfl
              · exact hconnNR x hx
              · rfl
            · rw [if_neg hsf] at hx
              simp at hx
              rcases hx with rfl | rfl | hx | rfl | hx | rfl
              · rfl
              · rfl
              · exact hremNR x hx
              · rfl
              · exact hconnNR x hx
              · rfl

/-- C1 (amended): `RecreateContainer` has no rollback.  It never issues a
rename, and whenever the stop and remove phases succeed but the run
still fails (create, network attach or start), the old container has
been removed and is absent from the final daemon state — it is not
restored.  (The hypothesis on `createId` just says the daemon does not
reuse the removed container's id for the new container.) -/
theorem recreateContainer_no_rollback (b : RecBehavior) (st : List DCont) (old : DSnapshot)
    (recreated : List (String × String))
    (hp : b.pullOk = true) (hs : b.stopOk = true)
    (hr : b.removeOk = true ∨ (b.removeInProgress = true ∧ b.waitRemovalOk = true))
    (hc : ∀ n, b.createId = some n → n ≠ old.id) :
    ((RecreateContainer b st old recreated).2.2.all (fun e => !(isRenameCall e)) = true) ∧
    (isErr (RecreateContainer b st old recreated).1 = true →
      (RecreateContainer b st old recreated).2.1.all (fun c => c.id != old.id) = true) := by
  constructor
  · rw [List.all_eq_true]
    intro x hx
    rw [Bool.not_eq_true']
    exact recreateTrace_no_rename b st old recreated x hx
  · intro herr
    have hrs := removeStep_success b (setStopped st old.id) old.id hr
    have hst2 := removeFromState_all_ne (setStopped st old.id) old.id
    unfold RecreateContainer at herr ⊢
    simp only [hp, hs, hrs, Bool.true_eq_false, if_false] at herr ⊢
    cases hcid : b.createId with
    | none =>
      simp only [hcid]
      exact hst2
    | some nid =>
      simp only [hcid] at herr ⊢
      have hnid : (nid != old.id) = true := bne_iff_ne.mpr (hc nid hcid)
      have hst3 : ((removeFromState (setStopped st old.id) old.id) ++
          [DCont.mk nid old.name false]).all (fun c => c.id != old.id) = true := by
        simp only [List.all_append, Bool.and_eq_true]
        exact ⟨hst2, by simp [hnid]⟩
      by_cases hcf : (connectAll b nid (extractNetworks old.networks).2).1 = false
      · rw [if_pos hcf]
        exact hst3
      · rw [if_neg hcf] at herr ⊢
        by_cases hsf : b.startOk = false
        · rw [if_pos hsf]
          exact hst3
        · rw [if_neg hsf] at herr
          simp [isErr] at herr

/-- Counterexample to C1 as stated: stop and remove succeed, the create
call fails, and the resulting daemon state is empty — the old container
is not "running under its original name", it is absent; no rollback (and
no rename) ever happened. -/
theorem recreateContainer_create_failure_old_absent :
    isErr (RecreateContainer c1Beh c1St c1Snap []).1 = true ∧
    (RecreateContainer c1Beh c1St c1Snap []).2.1 = [] ∧
    ((RecreateContainer c1Beh c1St c1Snap []).2.2.all (fun e => !(isRenameCall e)) = true) := by
  refine ⟨by decide, by decide, by decide⟩

/-- Witness for the amended C1: with a behavior that fails at the start
step, the old container is absent from the final state and no rename was
issued. -/
theorem recreateContainer_no_rollback_witness :
    ((RecreateContainer c2Beh c1St c1Snap []).2.2.all (fun e => !(isRenameCall e)) = true) ∧
    (isErr (RecreateContainer c2Beh c1St c1Snap []).1 = true →
      (RecreateContainer c2Beh c1St c1Snap []).2.1.all (fun c => c.id != c1Snap.id) = true) := by
  exact recreateContainer_no_rollback c2Beh c1St c1Snap []
    (by decide) (by decide) (Or.inl (by decide)) (by decide)

/-- C2 (amended): the network-extraction loop takes the *first* network
in the daemon's enumeration order as the single primary endpoint and
returns the remaining names, in enumeration order, as the networks to
attach after creation; `RecreateContainer`'s create call receives
exactly that primary. -/
theorem extractNetworks_first_in_enumeration :
    (∀ (α : Type) (p : String × α) (rest : List (String × α)),
      extractNetworks (p :: rest) = (some p, rest.map Prod.fst)) ∧
    (∀ (b : RecBehavior) (st : List DCont) (old : DSnapshot)
        (recreated : List (String × String)),
      b.pullOk = true → b.stopOk = true → b.removeOk = true →
      DCall.create old.name ((extractNetworks old.networks).1.map Prod.fst)
        (resolveNetworkMode b.net old.networkMode recreated) ∈
        (RecreateContainer b st old recreated).2.2) := by
  refine ⟨fun α p rest => rfl, fun b st old recreated hp hs hrm => ?_⟩
  have hrs := removeStep_success b (setStopped st old.id) old.id (Or.inl hrm)
  unfold RecreateContainer
  simp only [hp, hs, hrs, Bool.true_eq_false, if_false]
  cases hcid : b.createId with
  | none => simp
  | some nid =>
    simp only [hcid]
    cases hcf : (connectAll b nid (extractNetworks old.networks).2).1 <;>
      cases hsf : b.startOk <;> simp [hcf, hsf]

/-- Witness for the amended C2: the snapshot whose networks are
enumerated `netB` then `netA` has its create call carry primary `netB`. -/
theorem extractNetworks_first_in_enumeration_witness :
    DCall.create ("/app") (some ("netB")) ("bridge") ∈
      (RecreateContainer c2Beh [] c2SnapBA []).2.2 := by
  have h := extractNetworks_first_in_enumeration.2 c2Beh [] c2SnapBA [] rfl rfl rfl
  exact h

/-- Counterexample to C2 as stated: the same two-network map, enumerated
in its two possible orders, yields two different primaries, and under
the `netB`-first enumeration the primary is `netB` although the
lexicographically smallest network name is `netA`; so the choice is
neither lexicographic nor independent of enumeration order. -/
theorem extractNetworks_not_lexicographic :
    (extractNetworks c2SnapBA.networks).1 = some (("netB"), 0) ∧
    (extractNetworks c2SnapAB.networks).1 = some (("netA"), 1) ∧
    List.Perm c2SnapBA.networks c2SnapAB.networks ∧
    strLexLt ("netA") ("netB") = true ∧
    (DCall.create ("/app") (some ("netB")) ("bridge")) ∈
      (RecreateContainer c2Beh [] c2SnapBA []).2.2 ∧
    (DCall.connect ("netA") ("newC2")) ∈ (RecreateContainer c2Beh [] c2SnapBA []).2.2 := by
  refine ⟨by decide, by decide, by decide, by decide, by decide, by decide⟩

end Repull.Docker

namespace Repull.Notify

/-- C10: on a nil notifier (the result of `NewDiscordNotifier` on an
empty webhook URL) both `SendUpdate` and `SendError` return nil and
perform no HTTP request, for every transport and every argument tuple. -/
theorem nilNotifier_noop (env : HttpEnv) (service image oldD newD errMsg : String) :
    SendUpdate env none service image oldD newD = (Except.ok (), []) ∧
    SendError env none service errMsg = (Except.ok (), []) ∧
    NewDiscordNotifier "" = Except.ok none := by
  refine ⟨rfl, rfl, by simp [NewDiscordNotifier]⟩

end Repull.Notify

namespace Repull.Updater

theorem lookupGroup_upsert (gs : List (String × List Snapshot)) (k' k : String) (c : Snapshot) :
    lookupGroup (upsert gs k' c) k =
      if k' = k then lookupGroup gs k ++ [c] else lookupGroup gs k := by
  induction gs with
  | nil =>
    by_cases h : k' = k <;> simp [upsert, lookupGroup, lookupA, h]
  | cons p rest ih =>
    obtain ⟨k₀, l₀⟩ := p
    by_cases h0 : k₀ = k'
    · subst h0
      by_cases h : k₀ = k <;> simp [upsert, lookupGroup, lookupA, h]
    · have h0' : ¬ (k₀ = k') := h0
      by_cases h : k₀ = k
      · subst h
        have hne : k' ≠ k₀ := fun hh => h0 hh.symm
        simp [upsert, if_neg h0', lookupGroup, lookupA, if_neg hne, hne]
      · simp only [upsert, if_neg h0']
        simp only [lookupGroup, lookupA, if_neg h] at ih ⊢
        exact ih

theorem lookupGroup_fold (cs : List Snapshot) (acc : List (String × List Snapshot)) (k : String) :
    lookupGroup (cs.foldl (fun gs c => upsert gs (getGroupKey c) c) acc) k =
      lookupGroup acc k ++ cs.filter (fun c => getGroupKey c == k) := by
  induction cs generalizing acc with
  | nil => simp
  | cons c rest ih =>
    simp only [List.foldl_cons, List.filter_cons]
    rw [ih, lookupGroup_upsert]
    by_cases h : getGroupKey c = k
    · simp [h, List.append_assoc]
    · simp [h]

theorem flattenGroups_upsert (gs : List (String × List Snapshot)) (k : String) (c : Snapshot) :
    List.Perm (flattenGroups (upsert gs k c)) (c :: flattenGroups gs) := by
  induction gs with
  | nil => simp [upsert, flattenGroups]
  | cons p rest ih =>
    obtain ⟨k₀, l₀⟩ := p
    by_cases h : k₀ = k
    · subst h
      have hu : upsert ((k₀, l₀) :: rest) k₀ c = (k₀, l₀ ++ [c]) :: rest := by
        simp [upsert]
      rw [hu]
      simp only [flattenGroups, List.foldr_cons]
      have h1 : (l₀ ++ [c]) ++ List.foldr (fun p acc => p.2 ++ acc) [] rest
          = l₀ ++ c :: List.foldr (fun p acc => p.2 ++ acc) [] rest := by simp
      rw [h1]
      exact List.perm_middle
    · simp only [upsert, if_neg h, flattenGroups, List.foldr_cons]
      exact List.Perm.trans (List.Perm.append_left l₀ ih) List.perm_middle

theorem flattenGroups_fold (cs : List Snapshot) (acc : List (String × List Snapshot)) :
    List.Perm (flattenGroups (cs.foldl (fun gs c => upsert gs (getGroupKey c) c) acc))
      (flattenGroups acc ++ cs) := by
  induction cs generalizing acc with
  | nil => simp
  | cons c rest ih =>
    simp only [List.foldl_cons]
    have h1 := ih (upsert acc (getGroupKey c) c)
    have h2 : List.Perm (flattenGroups (upsert acc (getGroupKey c) c) ++ rest)
        ((c :: flattenGroups acc) ++ rest) :=
      List.Perm.append_right rest (flattenGroups_upsert acc (getGroupKey c) c)
    have h3 : List.Perm ((c :: flattenGroups acc) ++ rest) (flattenGroups acc ++ c :: rest) := by
      simpa using (@List.perm_middle _ c (flattenGroups acc) rest).symm
    exact List.Perm.trans h1 (List.Perm.trans h2 h3)

theorem getGroupKey_eq_spec (c : Snapshot) : getGroupKey c = specGroupKey c := by
  obtain ⟨id, name, config⟩ := c
  cases config with
  | none => rfl
  | some cfg =>
    obtain ⟨image, labels⟩ := cfg
    cases labels with
    | none => rfl
    | some ls =>
      simp only [getGroupKey, specGroupKey, Option.some_bind]
      cases hp : lookupA ls ComposeProjectLabel with
      | none => simp [hp]
      | some p =>
        cases hs : lookupA ls ComposeServiceLabel with
        | none => simp [hp, hs]
        | some s =>
          simp only [hp, hs]
          by_cases h1 : p = ""
          · simp [h1]
          · by_cases h2 : s = ""
            · simp [h1, h2]
            · have hb1 : (p != "") = true := bne_iff_ne.mpr h1
              have hb2 : (s != "") = true := bne_iff_ne.mpr h2
              simp [hb1, hb2, h1, h2]

/-- C3: `GroupByComposeService` is a partition keyed exactly as specified.
Each key's group is precisely the input's sub-sequence of containers with
that key (so order within a group is insertion order, nothing is omitted
and nothing moves between groups); the concatenation of all groups is a
permutation of the input (nothing is duplicated or dropped); the result
is a pure function of the input (deterministic and idempotent); and the
key of every container follows the spec's rule: `project:service` exactly
when both compose labels are present and non-empty, else
`standalone:<id>`. -/
theorem groupByComposeService_partition (cs : List Snapshot) :
    (∀ k, lookupGroup (GroupByComposeService cs) k =
        cs.filter (fun c => getGroupKey c == k)) ∧
    List.Perm (flattenGroups (GroupByComposeService cs)) cs ∧
    (∀ c, getGroupKey c = specGroupKey c) := by
  refine ⟨fun k => ?_, ?_, getGroupKey_eq_spec⟩
  · have := lookupGroup_fold cs [] k
    simpa [lookupGroup, lookupA, GroupByComposeService] using this
  · have := flattenGroups_fold cs []
    simpa [flattenGroups, GroupByComposeService] using this

/-- C4: digest change is plain string inequality; equal digests (including
two empty ones) never report a change, and an empty old digest reports a
change exactly against a non-empty new digest. -/
theorem hasDigestChanged_iff_ne (a b : String) :
    (Docker.HasDigestChanged a b = true ↔ a ≠ b) ∧
    Docker.HasDigestChanged a a = false ∧
    Docker.HasDigestChanged "" "" = false ∧
    Docker.HasDigestChanged "" a = (a != "") := by
  refine ⟨?_, ?_, rfl, ?_⟩
  · simp [Docker.HasDigestChanged, bne_iff_ne]
  · simp [Docker.HasDigestChanged]
  · by_cases h : a = ""
    · subst h; rfl
    · have h1 : ("" : String) ≠ a := fun hh => h hh.symm
      have ha : (("" : String) != a) = true := bne_iff_ne.mpr h1
      have hb : (a != "") = true := bne_iff_ne.mpr h
      simp [Docker.HasDigestChanged, ha, hb]

theorem notifyErrEvents_readonly (hN : Bool) (g m : String) :
    ∀ e ∈ notifyErrEvents hN g m, isReadOnlyEvent e = true := by
  intro e he
  cases hN
  · simp [notifyErrEvents] at he
  · simp [notifyErrEvents] at he
    subst he
    rfl

theorem checkGroup_dryRun_readonly (env : UEnv) (hasN : Bool) (gk : String)
    (cs : List Snapshot) (rec : List (String × String)) :
    (∀ e ∈ (checkGroup env hasN true gk cs rec).2.2, isReadOnlyEvent e = true) ∧
    (checkGroup env hasN true gk cs rec).1 ≠ UOutcome.exited := by
  cases cs with
  | nil =>
    constructor
    · intro e he
      simp [checkGroup] at he
    · simp [checkGroup]
  | cons c0 rest =>
    simp only [checkGroup]
    by_cases hpl : env.pullOk (imageOf c0) = false
    · rw [if_pos hpl]
      refine ⟨fun e he => ?_, by simp⟩
      simp at he
      rcases he with rfl | rfl | he
      · rfl
      · rfl
      · exact notifyErrEvents_readonly hasN _ _ e he
    · rw [if_neg hpl]
      cases hnd : env.newDigest (imageOf c0) with
      | none =>
        simp only [hnd]
        refine ⟨fun e he => ?_, by simp⟩
        simp at he
        rcases he with rfl | rfl | rfl | he
        · rfl
        · rfl
        · rfl
        · exact notifyErrEvents_readonly hasN _ _ e he
      | some newD =>
        simp only [hnd]
        by_cases hch :
            Docker.HasDigestChanged ((env.oldDigest (imageOf c0)).getD "") newD = false
        · rw [if_pos hch]
          refine ⟨fun e he => ?_, by simp⟩
          simp at he
          rcases he with rfl | rfl | rfl <;> rfl
        · rw [if_neg hch, if_pos trivial]
          refine ⟨fun e he => ?_, by simp⟩
          simp at he
          rcases he with rfl | rfl | rfl <;> rfl

theorem groupsLoop_dryRun_readonly (env : UEnv) (hasN : Bool)
    (groups : List (String × List Snapshot)) (rec : List (String × String)) :
    (∀ e ∈ (groupsLoop env hasN true groups rec).2.2, isReadOnlyEvent e = true) ∧
    (groupsLoop env hasN true groups rec).1 ≠ UOutcome.exited := by
  induction groups generalizing rec with
  | nil =>
    constructor
    · intro e he
      simp [groupsLoop] at he
    · simp [groupsLoop]
  | cons g rest ih =>
    obtain ⟨gk, cs⟩ := g
    have hcg := checkGroup_dryRun_readonly env hasN gk cs rec
    simp only [groupsLoop]
    cases hout : (checkGroup env hasN true gk cs rec).1 with
    | ok =>
      simp only [hout]
      obtain ⟨ih1, ih2⟩ := ih ((checkGroup env hasN true gk cs rec).2.1)
      constructor
      · intro e he
        rw [List.mem_append] at he
        rcases he with he | he
        · exact hcg.1 e he
        · exact ih1 e he
      · exact ih2
    | err m =>
      simp only [hout]
      exact ⟨hcg.1, by simp⟩
    | exited =>
      exact absurd hout hcg.2

/-- C5: with the dry-run signal active, `UpdateGroups` emits only digest
lookups, image pulls and (error) reporting: no recreate invocation, no
rename, no self-update create/stop, and no process exit — for every
daemon behavior and every group list, whether or not digests changed. -/
theorem updateGroups_dryRun_readonly (env : UEnv) (hasNotifier : Bool)
    (groups : List (String × List Snapshot)) :
    ((UpdateGroups env hasNotifier true groups).2.2.all isReadOnlyEvent = true) ∧
    (UpdateGroups env hasNotifier true groups).1 ≠ UOutcome.exited := by
  have h := groupsLoop_dryRun_readonly env hasNotifier groups []
  exact ⟨List.all_eq_true.mpr h.1, h.2⟩

/-- C6: in the self-update branch, when the rename succeeded but
creating/starting the replacement fails, the engine issues a rename of
itself back to its original name, sends an error notification, and
returns an error — it does not exit the process. -/
theorem selfUpdate_failure_rolls_back (env : UEnv) (groupKey image oldD newD : String)
    (c : Snapshot) (rest : List Snapshot) (recreated : List (String × String))
    (hself : isSelf env.ownID c.id = true)
    (hren : env.renameOk c.id (tempNameOf c) = true)
    (hcre : env.createStartOk (containerNameOf c) = false) :
    (recreateLoop env true groupKey image oldD newD (c :: rest) recreated).1 =
      UOutcome.err ("failed to create new container for self-update") ∧
    UEvent.renameCall c.id (containerNameOf c) ∈
      (recreateLoop env true groupKey image oldD newD (c :: rest) recreated).2.2 ∧
    UEvent.notifyError (sanitize groupKey) ("Self-update failed: could not start new container") ∈
      (recreateLoop env true groupKey image oldD newD (c :: rest) recreated).2.2 ∧
    UEvent.exitProcess ∉
      (recreateLoop env true groupKey image oldD newD (c :: rest) recreated).2.2 := by
  have hred : recreateLoop env true groupKey image oldD newD (c :: rest) recreated =
      (UOutcome.err ("failed to create new container for self-update"), recreated,
        UEvent.renameCall c.id (tempNameOf c) ::
          UEvent.createStart (containerNameOf c) false ::
          UEvent.renameCall c.id (containerNameOf c) ::
          [UEvent.notifyError (sanitize groupKey)
            ("Self-update failed: could not start new container")]) := by
    simp [recreateLoop, hself, hren, hcre, notifyErrEvents]
  rw [hred]
  refine ⟨rfl, ?_, ?_, ?_⟩ <;> simp

/-- Witness for C6: a concrete run whose single container is the
updater itself and whose replacement fails to start. -/
theorem selfUpdate_failure_rolls_back_witness :
    (recreateLoop c6Env true ("g1") ("repull:latest") ("sha256:one") ("sha256:two")
        [c6Snap] []).1 = UOutcome.err ("failed to create new container for self-update") ∧
    UEvent.renameCall c6Snap.id (containerNameOf c6Snap) ∈
      (recreateLoop c6Env true ("g1") ("repull:latest") ("sha256:one") ("sha256:two")
        [c6Snap] []).2.2 ∧
    UEvent.notifyError (sanitize ("g1")) ("Self-update failed: could not start new container") ∈
      (recreateLoop c6Env true ("g1") ("repull:latest") ("sha256:one") ("sha256:two")
        [c6Snap] []).2.2 ∧
    UEvent.exitProcess ∉
      (recreateLoop c6Env true ("g1") ("repull:latest") ("sha256:one") ("sha256:two")
        [c6Snap] []).2.2 := by
  exact selfUpdate_failure_rolls_back c6Env ("g1") ("repull:latest") ("sha256:one")
    ("sha256:two") c6Snap [] [] (by decide) (by decide) (by decide)

theorem depLoop_mem (env : UEnv) (deps : List Snapshot) (rec : List (String × String))
    (oldId newId : String) :
    ((oldId, newId) ∈ (depLoop env deps rec).1 ↔
      (oldId, newId) ∈ rec ∨
        UEvent.recreateCall oldId (some newId) ∈ (depLoop env deps rec).2) := by
  induction deps generalizing rec with
  | nil => simp [depLoop]
  | cons dep rest ih =>
    cases hrec : env.recreate dep.id rec with
    | none =>
      simp only [depLoop, hrec]
      rw [ih]
      simp [List.mem_cons]
    | some nid =>
      simp only [depLoop, hrec]
      rw [ih]
      simp [List.mem_cons, Prod.ext_iff]
      tauto

theorem recreateLoop_mem (env : UEnv) (hasN : Bool) (gk img oldD newD : String)
    (cs : List Snapshot) (rec : List (String × String)) (oldId newId : String) :
    ((oldId, newId) ∈ (recreateLoop env hasN gk img oldD newD cs rec).2.1 ↔
      (oldId, newId) ∈ rec ∨
        UEvent.recreateCall oldId (some newId) ∈
          (recreateLoop env hasN gk img oldD newD cs rec).2.2) := by
  induction cs generalizing rec with
  | nil => simp [recreateLoop]
  | cons c rest ih =>
    cases hself : isSelf env.ownID c.id
    · cases hrec : env.recreate c.id rec with
      | none =>
        cases hN : hasN <;>
          simp [recreateLoop, hself, hrec, notifyErrEvents, hN]
      | some nid =>
        simp only [recreateLoop, hself, Bool.false_eq_true, if_false, hrec]
        rw [ih]
        rw [depLoop_mem]
        simp [List.mem_cons, List.mem_append, Prod.ext_iff]
        tauto
    · cases hren : env.renameOk c.id (tempNameOf c)
      · cases hN : hasN <;>
          simp [recreateLoop, hself, hren, notifyErrEvents, hN]
      · cases hcre : env.createStartOk (containerNameOf c)
        · cases hN : hasN <;>
            simp [recreateLoop, hself, hren, hcre, notifyErrEvents, hN]
        · cases hN : hasN <;>
            simp [recreateLoop, hself, hren, hcre, notifyUpdEvents, hN]

theorem checkGroup_mem (env : UEnv) (hasN dry : Bool) (gk : String) (cs : List Snapshot)
    (rec : List (String × String)) (oldId newId : String) :
    ((oldId, newId) ∈ (checkGroup env hasN dry gk cs rec).2.1 ↔
      (oldId, newId) ∈ rec ∨
        UEvent.recreateCall oldId (some newId) ∈ (checkGroup env hasN dry gk cs rec).2.2) := by
  cases cs with
  | nil => simp [checkGroup]
  | cons c0 rest =>
    simp only [checkGroup]
    by_cases hpl : env.pullOk (imageOf c0) = false
    · rw [if_pos hpl]
      cases hN : hasN <;> simp [notifyErrEvents, hN]
    · rw [if_neg hpl]
      cases hnd : env.newDigest (imageOf c0) with
      | none =>
        simp only [hnd]
        cases hN : hasN <;> simp [notifyErrEvents, hN]
      | some newD =>
        simp only [hnd]
        by_cases hch :
            Docker.HasDigestChanged ((env.oldDigest (imageOf c0)).getD "") newD = false
        · rw [if_pos hch]
          simp
        · rw [if_neg hch]
          by_cases hdry : dry = true
          · rw [if_pos hdry]
            simp
          · rw [if_neg hdry]
            cases hout : (recreateLoop env hasN gk (imageOf c0)
                ((env.oldDigest (imageOf c0)).getD "") newD (c0 :: rest) rec).1 with
            | ok =>
              simp only [hout]
              rw [recreateLoop_mem]
              cases hN : hasN <;> simp [notifyUpdEvents, hN]
            | err m =>
              simp only [hout]
              rw [recreateLoop_mem]
              simp
            | exited =>
              simp only [hout]
              rw [recreateLoop_mem]
              simp

theorem groupsLoop_mem (env : UEnv) (hasN dry : Bool)
    (groups : List (String × List Snapshot)) (rec : List (String × String))
    (oldId newId : String) :
    ((oldId, newId) ∈ (groupsLoop env hasN dry groups rec).2.1 ↔
      (oldId, newId) ∈ rec ∨
        UEvent.recreateCall oldId (some newId) ∈ (groupsLoop env hasN dry groups rec).2.2) := by
  induction groups generalizing rec with
  | nil => simp [groupsLoop]
  | cons g rest ih =>
    obtain ⟨gk, cs⟩ := g
    simp only [groupsLoop]
    cases hout : (checkGroup env hasN dry gk cs rec).1 with
    | ok =>
      simp only [hout]
      rw [ih, checkGroup_mem]
      simp [List.mem_append]
      tauto
    | err m =>
      simp only [hout]
      exact checkGroup_mem env hasN dry gk cs rec oldId newId
    | exited =>
      simp only [hout]
      exact checkGroup_mem env hasN dry gk cs rec oldId newId

/-- C9: over a whole run of `UpdateGroups` — which begins with an empty
Recreation Map — the final map holds an entry `old → new` exactly when
the run's trace records a successful recreate of `old` into `new` (group
members and network dependents alike); failed recreations never add an
entry, and nothing outside this run's trace can contribute one. -/
theorem recreationMap_exactly_successes (env : UEnv) (hasNotifier dryRun : Bool)
    (groups : List (String × List Snapshot)) (oldId newId : String) :
    ((oldId, newId) ∈ (UpdateGroups env hasNotifier dryRun groups).2.1 ↔
      UEvent.recreateCall oldId (some newId) ∈
        (UpdateGroups env hasNotifier dryRun groups).2.2) := by
  have h := groupsLoop_mem env hasNotifier dryRun groups [] oldId newId
  simpa [UpdateGroups] using h

end Repull.Updater
